import Mathlib

/-!
Verification of the scoring-and-classification engine of `script.js`
(3DPoliticalTest).

The JavaScript is embedded shallowly:

* numbers that the program only ever adds, multiplies, divides and compares
  are modelled as `ℚ` (the engine's arithmetic is exact on the inputs the
  claims are about; floating-point rounding itself is not modelled);
* trigonometric code (`quadrantFromVector`, the spherical part of
  `computeResults`) is modelled over `ℝ` with `Real.arccos` / `Real.arctan`;
* a JavaScript value that may be `undefined` / `null` / non-coercible is an
  `Option`: `none` plays the role of "undefined, or not a finite number";
  where the source coerces with `Number(v) || 0` the model carries the
  already-coerced rational;
* JavaScript arrays are `List`s, objects are structures, early `return`s
  become match chains in source order.

Source: `script.js` of the repository; line numbers below refer to it.
-/

unseal Rat.add Rat.mul Rat.inv Rat.sub

/-! ## Axes, questions and the question normalizer (`script.js` 435-471) -/

/-- The three scoring axes (`AXES`, line 435). -/
inductive Axis
  | economia
  | dirittocivilismo
  | establishment
deriving DecidableEq

/-- A legacy `component` tag as far as `componentToAxis` can see it:
either one of the recognised strings, or (`none` at the use sites)
absent / unrecognised / falsy. -/
inductive Component
  | economia
  | dirittocivilismo
  | establishment
  | autoritarismo
deriving DecidableEq

/-- `componentToAxis` (lines 442-446): `autoritarismo` aliases
`dirittocivilismo`; the members of `AXES` map to themselves; anything
else (modelled by `none`) maps to `null`. -/
def componentToAxis (component : Option Component) : Option Axis :=
  match component with
  | none => none
  | some Component.autoritarismo => some Axis.dirittocivilismo
  | some Component.economia => some Axis.economia
  | some Component.dirittocivilismo => some Axis.dirittocivilismo
  | some Component.establishment => some Axis.establishment

/-- A raw `weights` object: per axis, `none` when the property is
`undefined`, `some v` when it is present with `Number(...) || 0`
coercion result `v` (so a present non-numeric value is `some 0`). -/
structure RawWeights where
  economia : Option ℚ
  dirittocivilismo : Option ℚ
  establishment : Option ℚ
deriving DecidableEq

/-- Projection of a `RawWeights` object on one axis. -/
def RawWeights.get (w : RawWeights) : Axis → Option ℚ
  | Axis.economia => w.economia
  | Axis.dirittocivilismo => w.dirittocivilismo
  | Axis.establishment => w.establishment

/-- A raw question record (the `title` string is irrelevant to every claim
and is not modelled).  `weights = none` models a missing or non-object
`weights` property. -/
structure RawQuestion where
  weights : Option RawWeights
  component : Option Component
deriving DecidableEq

/-- Canonical weights of a normalized question: one definite rational per
axis. -/
structure Weights where
  economia : ℚ
  dirittocivilismo : ℚ
  establishment : ℚ
deriving DecidableEq

/-- A question after `normalizeQuestionEntry`: it always carries a
`weights` object. -/
structure NormQuestion where
  weights : Weights
deriving DecidableEq

/-- The per-axis value computed by the `AXES.forEach` body of
`normalizeQuestionEntry` (lines 454-463): the explicit weight when the
`weights` object provides the axis, else `1` when the legacy component
maps to the axis, else `0`.  A non-object question (`none`) contributes
`0` everywhere (lines 450-452). -/
def rawWeight (question : Option RawQuestion) (axis : Axis) : ℚ :=
  match question with
  | none => 0
  | some q =>
    match q.weights with
    | some w =>
      match w.get axis with
      | some v => v
      | none => if componentToAxis q.component = some axis then 1 else 0
    | none => if componentToAxis q.component = some axis then 1 else 0

/-- `weightSum` of `normalizeQuestionEntry` (line 464): the sum of the
absolute values of the three pre-normalization axis weights. -/
def weightSum (question : Option RawQuestion) : ℚ :=
  |rawWeight question Axis.economia| + |rawWeight question Axis.dirittocivilismo| +
    |rawWeight question Axis.establishment|

/-- `normalizeQuestionEntry` (lines 448-471): compute the per-axis raw
weights, then L1-normalize them when their absolute sum is positive. -/
def normalizeQuestionEntry (question : Option RawQuestion) : NormQuestion :=
  let we := rawWeight question Axis.economia
  let wd := rawWeight question Axis.dirittocivilismo
  let ws := rawWeight question Axis.establishment
  let s := |we| + |wd| + |ws|
  if 0 < s then ⟨⟨we / s, wd / s, ws / s⟩⟩ else ⟨⟨we, wd, ws⟩⟩

/-- `computeWeightTotals` (lines 473-481): per-axis sum of the absolute
weights over a question list (a `reduce`, i.e. a left fold, starting from
all-zero totals). -/
def computeWeightTotals (questions : List NormQuestion) : Weights :=
  questions.foldl
    (fun acc q =>
      ⟨acc.economia + |q.weights.economia|,
       acc.dirittocivilismo + |q.weights.dirittocivilismo|,
       acc.establishment + |q.weights.establishment|⟩)
    ⟨0, 0, 0⟩

/-! ## The normalizer/scorer (`script.js` 483-496) -/

/-- A 3D coordinate (the `{x, y, z}` objects the engine passes around). -/
structure Vec3 where
  x : ℚ
  y : ℚ
  z : ℚ
deriving DecidableEq

/-- The per-axis `normalize` closure of `getNormalizedScores`
(lines 485-490): `0` when the denominator is `0` (JS `!denom`), else the
quotient clamped into `[-1, 1]` by `Math.max(-1, Math.min(1, value))`. -/
def normalizeAxis (score denom : ℚ) : ℚ :=
  if denom = 0 then 0 else max (-1) (min 1 (score / denom))

/-- `getNormalizedScores` (lines 483-496), as a pure function of the
running totals `(sx, sy, sz)` and the axis totals. -/
def getNormalizedScores (sx sy sz : ℚ) (totals : Weights) : Vec3 :=
  ⟨normalizeAxis sx totals.economia,
   normalizeAxis sy totals.dirittocivilismo,
   normalizeAxis sz totals.establishment⟩

/-! ## The score accumulator and quiz navigation (`script.js` 1150-1214) -/

/-- The quiz-relevant slice of the global `state` object (line 413):
current question index, the three running axis scores, the loaded
(normalized) questions, and the answers array (`none` = unanswered /
`undefined` slot). -/
structure QuizState where
  idx : ℕ
  x : ℚ
  y : ℚ
  z : ℚ
  questions : List NormQuestion
  answers : List (Option ℚ)
deriving DecidableEq

/-- `applyScore` (lines 1180-1186): add `weight * value` to each running
axis total.  A falsy question (`none`) is a no-op; a `NormQuestion`
always carries a `weights` object, so the `!question.weights` guard
cannot fire on normalized questions. -/
def applyScore (question : Option NormQuestion) (value : ℚ) (s : QuizState) : QuizState :=
  match question with
  | none => s
  | some q =>
    { s with
      x := s.x + q.weights.economia * value
      y := s.y + q.weights.dirittocivilismo * value
      z := s.z + q.weights.establishment * value }

/-- JS array element assignment `arr[i] = v`: pad with `undefined`
(`none`) up to `i` if needed, then set slot `i`. -/
def setSlot (l : List (Option ℚ)) (i : ℕ) (v : Option ℚ) : List (Option ℚ) :=
  (l ++ List.replicate (i + 1 - l.length) none).set i v

/-- JS array read `arr[i]` on the answers array: `none` when out of range
or when the slot holds `undefined`. -/
def getSlot (l : List (Option ℚ)) (i : ℕ) : Option ℚ :=
  (l.get? i).bind fun v => v

/-- `stepForward` (lines 1188-1196): advance to the next question when
one remains; otherwise `finish()` runs, which only changes the displayed
view (`state.step`), leaving every field modelled here untouched. -/
def stepForward (s : QuizState) : QuizState :=
  if s.idx + 1 < s.questions.length then { s with idx := s.idx + 1 } else s

/-- The `.ans` answer-button handler (lines 1151-1158): apply the current
question's weighted score, record the value in `answers[idx]`, then step
forward. -/
def answerCurrent (value : ℚ) (s : QuizState) : QuizState :=
  let s1 := applyScore (s.questions.get? s.idx) value s
  let s2 := { s1 with answers := setSlot s1.answers s1.idx (some value) }
  stepForward s2

/-- `stepBack` (lines 1199-1214).  At index `0` it switches to the
profile view, leaving the modelled fields unchanged.  Otherwise it reads
`questions[state.idx]` and `answers[state.idx]` (note: the index of the
question currently shown, *not* the previous one), reverts and clears
that slot when it holds an answer, and decrements the index. -/
def stepBack (s : QuizState) : QuizState :=
  if s.idx = 0 then s
  else
    let prevQ := s.questions.get? s.idx
    let prevScore := getSlot s.answers s.idx
    let s1 :=
      match prevScore with
      | some sc => { applyScore prevQ (-sc) s with answers := setSlot s.answers s.idx none }
      | none => s
    { s1 with idx := s1.idx - 1 }

/-! ## Quadrant metadata resolution (`script.js` 330-381, 518-573) -/

/-- A `bounds[axis]` value: `none` when the property is absent or not an
array; `some l` when it is an array, whose elements are `some q` for a
finite number `q` and `none` for anything `Number.isFinite` rejects. -/
def JsRange : Type := Option (List (Option ℚ))

instance : DecidableEq JsRange := by unfold JsRange; infer_instance

/-- A `bounds` object with its three optional axis ranges. -/
structure Bounds where
  x : JsRange
  y : JsRange
  z : JsRange
deriving DecidableEq

/-- The empty bounds object `{}` substituted by `entry.bounds || {}`. -/
def emptyBounds : Bounds := ⟨none, none, none⟩

/-- A quadrant dataset entry.  `id` is modelled after
`parseNumericQuadrantId` (lines 330-337): `some q` when the raw id (a
number, or a trimmed numeric string) coerces to the finite number `q`,
`none` otherwise. -/
structure QEntry where
  id : Option ℚ
  name : Option String
  content : Option String
  bounds : Option Bounds
  affiliazionepolitica : Option String
deriving DecidableEq

/-- `rangeIncludes(value, range)` (lines 339-348): a missing/short range
is a wildcard (`true` before the value is even inspected); then a
non-finite value never matches; then non-finite bounds never match; else
compare against the order-normalized `[lower, upper]`. -/
def rangeIncludes (value : Option ℚ) (range : JsRange) : Bool :=
  match range with
  | none => true
  | some l =>
    if l.length < 2 then true
    else
      match value with
      | none => false
      | some v =>
        match l with
        | some mn :: some mx :: _ => decide (min mn mx ≤ v ∧ v ≤ max mn mx)
        | _ => false

/-- The per-axis center of `getBoundsCenter` (lines 354-363): defined
exactly when the range is an array of length ≥ 2 whose first two entries
are finite, and then equal to their mean. -/
def axisCenter (range : JsRange) : Option ℚ :=
  match range with
  | some (some mn :: some mx :: _) => some ((mn + mx) / 2)
  | _ => none

/-- The partial center object built by `getBoundsCenter`. -/
structure BoundsCenter where
  x : Option ℚ
  y : Option ℚ
  z : Option ℚ
deriving DecidableEq

/-- `getBoundsCenter` (lines 350-365): `none` (JS `null`) when no axis
has a valid range, otherwise the per-axis means over the valid axes. -/
def getBoundsCenter (bounds : Bounds) : Option BoundsCenter :=
  let c : BoundsCenter := ⟨axisCenter bounds.x, axisCenter bounds.y, axisCenter bounds.z⟩
  if c.x = none ∧ c.y = none ∧ c.z = none then none else some c

/-- `distanceSquared(point, center)` (lines 367-381) for a finite point:
`⊤` (JS `Number.POSITIVE_INFINITY`) when the center is `null` or shares
no valid axis with the point, else the sum of squared differences over
the axes the center defines. -/
def distanceSquared (point : Vec3) (center : Option BoundsCenter) : WithTop ℚ :=
  match center with
  | none => ⊤
  | some c =>
    let diffs := [(point.x, c.x), (point.y, c.y), (point.z, c.z)].filterMap
      (fun p => p.2.map fun b => (p.1 - b) * (p.1 - b))
    if diffs = [] then ⊤ else ((diffs.foldl (fun a b => a + b) 0 : ℚ) : WithTop ℚ)

/-- The distance from a point to one dataset entry's bounds-center, as
used at line 544-545 (`getBoundsCenter(entry.bounds || {})`). -/
def entryDist (v : Vec3) (e : QEntry) : WithTop ℚ :=
  distanceSquared v (getBoundsCenter (e.bounds.getD emptyBounds))

/-- The bounds-containment test of the `filter` callback at lines
532-536 (`entry.bounds || {}` then `rangeIncludes` on all three axes). -/
def entryMatchesBounds (v : Vec3) (e : QEntry) : Bool :=
  let b := e.bounds.getD emptyBounds
  rangeIncludes (some v.x) b.x && rangeIncludes (some v.y) b.y && rangeIncludes (some v.z) b.z

/-- The `candidates` array of lines 532-536: dataset entries that are
truthy objects and whose bounds contain the coordinate. -/
def candidatesOf (v : Vec3) (data : List (Option QEntry)) : List QEntry :=
  data.filterMap fun oe =>
    match oe with
    | none => none
    | some e => if entryMatchesBounds v e then some e else none

/-- The id-match `find` of lines 521-528: first truthy entry whose
parsed numeric id equals `numericIndex + 1`. -/
def idMatchOf (idx : ℚ) (data : List (Option QEntry)) : Option QEntry :=
  (data.find? fun oe =>
    match oe with
    | none => false
    | some e =>
      match e.id with
      | some nid => decide (nid = idx + 1)
      | none => false).bind fun oe => oe

/-- The `forEach` loop of lines 540-551, tracking `best` and
`bestDistance` (initially `null` and `+∞`) and replacing them only on a
strict decrease of the distance. -/
def selectBestAux (v : Vec3) : List QEntry → Option QEntry → WithTop ℚ → Option QEntry
  | [], best, _ => best
  | e :: rest, best, bestD =>
    if entryDist v e < bestD then selectBestAux v rest (some e) (entryDist v e)
    else selectBestAux v rest best bestD

/-- The id-based step of `getQuadrantDetails` (lines 520-528): skipped
when the supplied index is not a finite number. -/
def idStep (index : Option ℚ) (data : List (Option QEntry)) : Option QEntry :=
  match index with
  | none => none
  | some idx => idMatchOf idx data

/-- The bounds-containment step of `getQuadrantDetails` (lines 530-553):
with a coordinate supplied, a single candidate is returned directly;
several candidates go through the best-distance loop, whose `null`
outcome falls through. -/
def boundsStep (vector : Option Vec3) (data : List (Option QEntry)) : Option QEntry :=
  match vector with
  | none => none
  | some v =>
    let cs := candidatesOf v data
    if cs.length = 1 then cs.head?
    else if 1 < cs.length then selectBestAux v cs none ⊤
    else none

/-- JS array indexing `QUADRANT_DATA[numericIndex]` with an arbitrary
finite number: hits a slot only for a non-negative integer index. -/
def ratNat? (q : ℚ) : Option ℕ :=
  if q.den = 1 ∧ 0 ≤ q.num then some q.num.toNat else none

/-- The positional fallback `QUADRANT_DATA[numericIndex]` of lines
555-557 (truthy entries only). -/
def positionalStep (index : Option ℚ) (data : List (Option QEntry)) : Option QEntry :=
  match index with
  | none => none
  | some idx =>
    match ratNat? idx with
    | none => none
    | some n => (data.get? n).bind fun oe => oe

/-- `getQuadrantDetails(index, vector)` (lines 518-559) over an explicit
dataset (the global `QUADRANT_DATA`); a non-array dataset behaves as the
empty list.  The early returns of the source become a match chain:
id match, then bounds step, then positional fallback, then
`QUADRANT_DATA[0] || null`. -/
def getQuadrantDetails (index : Option ℚ) (vector : Option Vec3)
    (data : List (Option QEntry)) : Option QEntry :=
  if data = [] then none
  else
    match idStep index data with
    | some e => some e
    | none =>
      match boundsStep vector data with
      | some e => some e
      | none =>
        match positionalStep index data with
        | some e => some e
        | none => data.head?.bind fun oe => oe

/-! ## Sector labels, palette and the legend (`script.js` 249-328, 402-410, 561-573) -/

/-- `PHI_DESCRIPTORS` (lines 249-254). -/
def PHI_DESCRIPTORS : List String :=
  ["Mercato aperto · Diritti civili",
   "Mercato aperto · Ordine sociale",
   "Intervento statale · Ordine sociale",
   "Intervento statale · Diritti civili"]

/-- `THETA_DESCRIPTORS` (lines 256-261). -/
def THETA_DESCRIPTORS : List String :=
  ["Allineamento forte con l\x27establishment",
   "Moderatamente filo-establishment",
   "Equilibrato ma critico",
   "Marcatamente anti-establishment"]

/-- `QUADRANT_COLORS` (lines 263-268). -/
def QUADRANT_COLORS : List ℕ :=
  [0xff595e, 0xff924c, 0xffca3a, 0x8ac926,
   0x52b788, 0x1982c4, 0x6a4c93, 0xffd6a5,
   0xffadad, 0x00bbf9, 0x3a86ff, 0x2ec4b6,
   0x8338ec, 0xfb5607, 0xffb703, 0x006d77]

/-- JS array lookup `arr[i] || fallback` for a string array and a
possibly negative integer index (negative or out of range gives
`undefined`, hence the fallback). -/
def listGetStr (l : List String) (i : ℤ) : String :=
  if 0 ≤ i then l.getD i.toNat "" else ""

/-- `descriptorFromSectors` (lines 316-320): clamp each sector from
above by the label count minus one, look the labels up and join them. -/
def descriptorFromSectors (phiSector thetaSector : ℤ) : String :=
  listGetStr PHI_DESCRIPTORS (min phiSector 3) ++ " · " ++
    listGetStr THETA_DESCRIPTORS (min thetaSector 3)

/-- `colorFromIndex` (lines 322-328), modelled by its hex value (the
`css` field is just the hex rendered as a string): palette entry at
`min(index, 15)` with the default `0x2d6cdf` when the lookup yields a
falsy value (out of range, in particular a negative index). -/
def colorFromIndex (index : ℤ) : ℕ :=
  let j := min index 15
  let hex := if 0 ≤ j then QUADRANT_COLORS.getD j.toNat 0 else 0
  if hex = 0 then 0x2d6cdf else hex

/-- A legend display record (both shapes of `getQuadrantLegend`). -/
structure LegendEntry where
  number : ℚ
  name : Option String
  descriptor : Option String
  bounds : Option Bounds
  affiliation : Option String
  color : ℕ
deriving DecidableEq

/-- `BASE_QUADRANT_LEGEND` (lines 402-410): 16 synthetic entries with
sector-derived descriptors and palette colors. -/
def BASE_QUADRANT_LEGEND : List LegendEntry :=
  (List.range 16).map fun (idx : ℕ) =>
    { number := (idx : ℚ) + 1
      name := none
      descriptor := some (descriptorFromSectors ((idx / 4 : ℕ) : ℤ) ((idx % 4 : ℕ) : ℤ))
      bounds := none
      affiliation := none
      color := colorFromIndex (idx : ℤ) }

/-- `getQuadrantLegend` (lines 561-573) over an explicit dataset:
`none` models a non-array `QUADRANT_DATA`.  An absent/empty/non-array
dataset yields the synthetic base legend; otherwise each entry is mapped
with its position (`entry?.field` reads and `id ?? idx + 1`). -/
def getQuadrantLegend (data : Option (List (Option QEntry))) : List LegendEntry :=
  match data with
  | none => BASE_QUADRANT_LEGEND
  | some l =>
    if l.length = 0 then BASE_QUADRANT_LEGEND
    else
      l.enum.map fun (p : ℕ × Option QEntry) =>
        { number := ((p.2.bind fun e => e.id).getD ((p.1 : ℚ) + 1))
          name := p.2.bind fun e => e.name
          descriptor := p.2.bind fun e => e.content
          bounds := p.2.bind fun e => e.bounds
          affiliation := p.2.bind fun e => e.affiliazionepolitica
          color := colorFromIndex ((p.1 : ℤ) % (QUADRANT_COLORS.length : ℤ)) }

/-! ## The spherical classifier (`script.js` 383-400, 1226-1260) -/

/-- `Math.atan2(y, x)` over the reals (there is no negative zero in `ℝ`;
otherwise this is the IEEE definition the source relies on): result in
`(-π, π]`, with `atan2 0 0 = 0`. -/
noncomputable def atan2 (y x : ℝ) : ℝ :=
  if 0 < x then Real.arctan (y / x)
  else if x < 0 ∧ 0 ≤ y then Real.arctan (y / x) + Real.pi
  else if x < 0 ∧ y < 0 then Real.arctan (y / x) - Real.pi
  else if x = 0 ∧ 0 < y then Real.pi / 2
  else if x = 0 ∧ y < 0 then -(Real.pi / 2)
  else 0

/-- The magnitude `Math.sqrt(x*x + y*y + z*z)` shared by
`quadrantFromVector` (line 384) and `computeResults` (line 1229); the
`|| 0` only guards NaN, which the real model has no need of. -/
noncomputable def rMag (x y z : ℝ) : ℝ :=
  Real.sqrt (x * x + y * y + z * z)

/-- The polar angle: `r ? Math.acos(z / r) : 0` (line 385), identically
`magnitude ? Math.acos(z / (magnitude || 1)) : 0` (line 1231). -/
noncomputable def thetaOf (x y z : ℝ) : ℝ :=
  if rMag x y z = 0 then 0 else Real.arccos (z / rMag x y z)

/-- The azimuth: `Math.atan2(y, x)` shifted by `2π` when negative
(lines 386-387 and 1232-1234). -/
noncomputable def phiOf (y x : ℝ) : ℝ :=
  if atan2 y x < 0 then atan2 y x + 2 * Real.pi else atan2 y x

/-- The raw (unclamped) azimuth sector `Math.floor(phi / (2π) * 4)`
(line 388, line 1236). -/
noncomputable def phiSectorRaw (x y : ℝ) : ℤ :=
  ⌊phiOf y x / (2 * Real.pi) * 4⌋

/-- The raw (unclamped) polar sector `Math.floor(theta / π * 4)`
(line 389, line 1237). -/
noncomputable def thetaSectorRaw (x y z : ℝ) : ℤ :=
  ⌊thetaOf x y z / Real.pi * 4⌋

/-- The clamp `if (sector > 3) sector = 3` applied by
`quadrantFromVector` (lines 390-391). -/
def clampSector (n : ℤ) : ℤ :=
  if n > 3 then 3 else n

/-- The record returned by `quadrantFromVector`. -/
structure QuadrantMeta where
  index : ℤ
  phiSector : ℤ
  thetaSector : ℤ
  descriptor : String
  color : ℕ
deriving DecidableEq

/-- `quadrantFromVector(x, y, z)` (lines 383-400): clamped sectors,
`index = phiSector * 4 + thetaSector`, sector-derived descriptor, palette
color. -/
noncomputable def quadrantFromVector (x y z : ℝ) : QuadrantMeta :=
  let phiSector := clampSector (phiSectorRaw x y)
  let thetaSector := clampSector (thetaSectorRaw x y z)
  let index := phiSector * 4 + thetaSector
  { index := index
    phiSector := phiSector
    thetaSector := thetaSector
    descriptor := descriptorFromSectors phiSector thetaSector
    color := colorFromIndex index }

/-- The `quadrant16` field of `computeResults` (lines 1229-1238):
`Math.min(phiSector * 4 + thetaSector + 1, 16)` computed from the *raw*
sectors – `computeResults` never applies the per-sector clamp. -/
noncomputable def computeQuadrant16 (x y z : ℝ) : ℤ :=
  min (phiSectorRaw x y * 4 + thetaSectorRaw x y z + 1) 16

/-! ## Helper predicates and example data -/

/-- A range the bounds filter treats as a wildcard: the property is
absent / not an array, or the array is shorter than two elements. -/
def rangeIsWildcard (range : JsRange) : Bool :=
  match range with
  | none => true
  | some l => decide (l.length < 2)

/-- A wildcard range passes `rangeIncludes` for every value. -/
theorem rangeIncludes_of_wildcard (value : Option ℚ) (range : JsRange)
    (h : rangeIsWildcard range = true) : rangeIncludes value range = true := by
  cases range with
  | none => rfl
  | some l =>
    have hl : l.length < 2 := by simpa [rangeIsWildcard] using h
    simp [rangeIncludes, hl]

/-- The three one-hot example questions (economy, civil rights,
establishment) used by the spec's worked examples. -/
def exampleQuestions : List NormQuestion :=
  [⟨⟨1, 0, 0⟩⟩, ⟨⟨0, 1, 0⟩⟩, ⟨⟨0, 0, 1⟩⟩]

/-- Fresh quiz state over the three example questions (as set up at
lines 1100-1104: index 0, zero scores, empty answers). -/
def exampleStart : QuizState := ⟨0, 0, 0, 0, exampleQuestions, []⟩

/-- The state after answering question 1 with `1`, question 2 with `-1`,
and pressing back once. -/
def backAfterTwo : QuizState := stepBack (answerCurrent (-1) (answerCurrent 1 exampleStart))

/-! ## Claims about the normalizer, scorer and accumulator -/

/-- C4: question normalization is L1-normalizing – with at least one
non-zero pre-normalization axis weight (explicit or derived from a
legacy component tag) the absolute values of the three normalized
weights sum to `1`; with all pre-normalization weights zero the
normalized weights are all `0`. -/
theorem normalizeQuestionEntry_l1_norm (q : Option RawQuestion) :
    ((rawWeight q Axis.economia ≠ 0 ∨ rawWeight q Axis.dirittocivilismo ≠ 0 ∨
        rawWeight q Axis.establishment ≠ 0) →
      |(normalizeQuestionEntry q).weights.economia| +
        |(normalizeQuestionEntry q).weights.dirittocivilismo| +
        |(normalizeQuestionEntry q).weights.establishment| = 1) ∧
    ((rawWeight q Axis.economia = 0 ∧ rawWeight q Axis.dirittocivilismo = 0 ∧
        rawWeight q Axis.establishment = 0) →
      (normalizeQuestionEntry q).weights = ⟨0, 0, 0⟩) := by
  constructor
  · intro h
    have hs : 0 < |rawWeight q Axis.economia| + |rawWeight q Axis.dirittocivilismo| +
        |rawWeight q Axis.establishment| := by
      rcases h with h | h | h
      · have h1 := abs_pos.mpr h
        have h2 := abs_nonneg (rawWeight q Axis.dirittocivilismo)
        have h3 := abs_nonneg (rawWeight q Axis.establishment)
        linarith
      · have h1 := abs_nonneg (rawWeight q Axis.economia)
        have h2 := abs_pos.mpr h
        have h3 := abs_nonneg (rawWeight q Axis.establishment)
        linarith
      · have h1 := abs_nonneg (rawWeight q Axis.economia)
        have h2 := abs_nonneg (rawWeight q Axis.dirittocivilismo)
        have h3 := abs_pos.mpr h
        linarith
    simp only [normalizeQuestionEntry, if_pos hs]
    rw [abs_div, abs_div, abs_div, abs_of_pos hs, div_add_div_same, div_add_div_same,
      div_self (ne_of_gt hs)]
  · rintro ⟨h1, h2, h3⟩
    simp [normalizeQuestionEntry, h1, h2, h3]

/-- Witness for C4 at concrete questions: explicit weights `(2, -1)` with
an undefined establishment slot normalize to absolute sum `1`; a question
providing only a zero weight normalizes to all zeros. -/
theorem normalizeQuestionEntry_l1_norm_check :
    |(normalizeQuestionEntry (some ⟨some ⟨some 2, some (-1), none⟩, none⟩)).weights.economia| +
      |(normalizeQuestionEntry (some ⟨some ⟨some 2, some (-1), none⟩, none⟩)).weights.dirittocivilismo| +
      |(normalizeQuestionEntry (some ⟨some ⟨some 2, some (-1), none⟩, none⟩)).weights.establishment| = 1 ∧
    (normalizeQuestionEntry (some ⟨some ⟨some 0, some 0, some 0⟩, none⟩)).weights = ⟨0, 0, 0⟩ :=
  ⟨(normalizeQuestionEntry_l1_norm (some ⟨some ⟨some 2, some (-1), none⟩, none⟩)).1
      (Or.inl (by decide)),
   (normalizeQuestionEntry_l1_norm (some ⟨some ⟨some 0, some 0, some 0⟩, none⟩)).2
      (by decide)⟩

/-- C5: the scorer's output is always in `[-1, 1]`; a zero axis total
gives exactly `0`, a non-zero one gives the clamped quotient; and
`getNormalizedScores` is this per-axis rule applied componentwise. -/
theorem normalizeAxis_clamped (score denom : ℚ) :
    (-1 ≤ normalizeAxis score denom ∧ normalizeAxis score denom ≤ 1) ∧
    (denom = 0 → normalizeAxis score denom = 0) ∧
    (denom ≠ 0 → normalizeAxis score denom = max (-1) (min 1 (score / denom))) ∧
    (∀ sy sz t2 t3, getNormalizedScores score sy sz ⟨denom, t2, t3⟩ =
      ⟨normalizeAxis score denom, normalizeAxis sy t2, normalizeAxis sz t3⟩) := by
  refine ⟨?_, fun h => by simp [normalizeAxis, h], fun h => by simp [normalizeAxis, h],
    fun _ _ _ _ => rfl⟩
  unfold normalizeAxis
  split_ifs
  · norm_num
  · exact ⟨le_max_left _ _, max_le (by norm_num) (min_le_left _ _)⟩

/-- Witness for C5 at concrete totals: a zero denominator gives `0`, a
non-zero one gives the clamp (here `5/2` clamped to `1`). -/
theorem normalizeAxis_clamped_check :
    normalizeAxis 5 0 = 0 ∧ normalizeAxis 5 2 = max (-1) (min 1 (5 / 2)) :=
  ⟨(normalizeAxis_clamped 5 0).2.1 rfl, (normalizeAxis_clamped 5 2).2.2.1 (by decide)⟩

/-- C6: score application is exactly reversible – applying a question
with value `v` and then with `-v` restores the running score vector (and
the whole quiz state) exactly. -/
theorem applyScore_reversible (q : Option NormQuestion) (v : ℚ) (s : QuizState) :
    applyScore q (-v) (applyScore q v s) = s := by
  cases q with
  | none => rfl
  | some q =>
    cases s
    simp [applyScore]

/-- C1 (behaviour the code actually has): after answering question 1
with `1` and question 2 with `-1` over the three one-hot example
questions, a single back press leaves the running score at `(1, -1, 0)`
– question 2's contribution is *not* reverted – and leaves its answer
slot set to `-1` rather than clearing it; only the index moves back to
`1`.  (`stepBack` reads `answers[state.idx]`, the unanswered slot of the
question currently shown, instead of the previous question's slot.) -/
theorem stepBack_keeps_second_contribution :
    backAfterTwo.idx = 1 ∧ backAfterTwo.x = 1 ∧ backAfterTwo.y = -1 ∧ backAfterTwo.z = 0 ∧
    getSlot backAfterTwo.answers 1 = some (-1) ∧
    (stepBack backAfterTwo).y = 0 := by decide

/-! ## Claims about bounds matching (C10) -/

/-- C10: a missing axis range, or one that is not an array of length at
least two, is a wildcard containing every value; an entry whose bounds
are all wildcards matches every coordinate; but a two-element range with
a non-numeric bound matches nothing. -/
theorem rangeIncludes_wildcard :
    (∀ value : Option ℚ, rangeIncludes value none = true) ∧
    (∀ (value : Option ℚ) (l : List (Option ℚ)), l.length < 2 →
      rangeIncludes value (some l) = true) ∧
    (∀ (v : Vec3) (e : QEntry),
      rangeIsWildcard (e.bounds.getD emptyBounds).x = true →
      rangeIsWildcard (e.bounds.getD emptyBounds).y = true →
      rangeIsWildcard (e.bounds.getD emptyBounds).z = true →
      entryMatchesBounds v e = true) ∧
    (∀ (value : Option ℚ) (a b : Option ℚ), a = none ∨ b = none →
      rangeIncludes value (some [a, b]) = false) := by
  refine ⟨fun _ => rfl, fun value l h => by simp [rangeIncludes, h], ?_, ?_⟩
  · intro v e hx hy hz
    simp [entryMatchesBounds, rangeIncludes_of_wildcard _ _ hx,
      rangeIncludes_of_wildcard _ _ hy, rangeIncludes_of_wildcard _ _ hz]
  · intro value a b h
    rcases h with h | h
    · subst h
      cases value with
      | none => rfl
      | some v => cases b with
        | none => rfl
        | some bv => rfl
    · subst h
      cases value with
      | none => rfl
      | some v => cases a with
        | none => rfl
        | some av => rfl

/-- Witness for C10 at concrete ranges: an absent range and a
one-element range match, an all-wildcard entry matches the coordinate
`(7, -3, 0)`, and the range `[undefined, 1]` matches nothing. -/
theorem rangeIncludes_wildcard_check :
    rangeIncludes (some 5) none = true ∧
    rangeIncludes none (some [some 1]) = true ∧
    entryMatchesBounds ⟨7, -3, 0⟩ ⟨none, none, none, some ⟨none, some [], some [some 1]⟩, none⟩ = true ∧
    rangeIncludes (some 0) (some [none, some 1]) = false :=
  ⟨rangeIncludes_wildcard.1 (some 5),
   rangeIncludes_wildcard.2.1 none [some 1] (by decide),
   rangeIncludes_wildcard.2.2.1 ⟨7, -3, 0⟩ ⟨none, none, none, some ⟨none, some [], some [some 1]⟩, none⟩
     (by decide) (by decide) (by decide),
   rangeIncludes_wildcard.2.2.2 (some 0) none (some 1) (Or.inl rfl)⟩

/-! ## The best-distance selection (C8) -/

/-- Smallest bounds-center distance over a candidate list (`⊤` when no
candidate has a valid center).  This and `firstMinByDist` transcribe the
spec's wording – "the one whose bounds-center is geometrically closest
(squared Euclidean distance over axes with valid data) ..., ties broken
by dataset order (first encountered wins)" – for comparison with the
loop the code runs. -/
def minDist (v : Vec3) (cs : List QEntry) : WithTop ℚ :=
  cs.foldr (fun e m => min (entryDist v e) m) ⊤

/-- The first candidate achieving the minimal bounds-center distance
(spec-side selection rule). -/
def firstMinByDist (v : Vec3) (cs : List QEntry) : Option QEntry :=
  cs.find? fun e => decide (entryDist v e = minDist v cs)

/-- The strict-improvement loop of lines 540-551 returns the first
minimal-distance candidate whenever some candidate beats the incoming
best distance, and the incoming best entry otherwise. -/
theorem selectBestAux_spec (v : Vec3) (cs : List QEntry) :
    ∀ (b : Option QEntry) (bd : WithTop ℚ),
      selectBestAux v cs b bd =
        if minDist v cs < bd then firstMinByDist v cs else b := by
  induction cs with
  | nil =>
    intro b bd
    have h0 : minDist v [] = (⊤ : WithTop ℚ) := rfl
    rw [h0, if_neg not_top_lt]
    rfl
  | cons e rest ih =>
    intro b bd
    have hmd : minDist v (e :: rest) = min (entryDist v e) (minDist v rest) := rfl
    by_cases hd : entryDist v e < bd
    · rw [show selectBestAux v (e :: rest) b bd =
          selectBestAux v rest (some e) (entryDist v e) from by simp [selectBestAux, hd]]
      rw [ih]
      by_cases hm : minDist v rest < entryDist v e
      · have hmin : minDist v (e :: rest) = minDist v rest := by
          rw [hmd]; exact min_eq_right hm.le
        rw [if_pos hm, if_pos (by rw [hmin]; exact hm.trans hd)]
        have hpe : decide (entryDist v e = minDist v rest) = false :=
          decide_eq_false (ne_of_gt hm)
        unfold firstMinByDist
        rw [hmin]
        simp only [List.find?, hpe]
      · have hle : entryDist v e ≤ minDist v rest := not_lt.mp hm
        have hmin : minDist v (e :: rest) = entryDist v e := by
          rw [hmd]; exact min_eq_left hle
        rw [if_neg hm, if_pos (by rw [hmin]; exact hd)]
        have hpe : decide (entryDist v e = minDist v (e :: rest)) = true :=
          decide_eq_true hmin.symm
        unfold firstMinByDist
        simp only [List.find?, hpe]
    · rw [show selectBestAux v (e :: rest) b bd = selectBestAux v rest b bd from by
          simp [selectBestAux, hd]]
      rw [ih]
      have hdge : bd ≤ entryDist v e := not_lt.mp hd
      by_cases hm : minDist v rest < bd
      · have hmlt : minDist v rest < entryDist v e := lt_of_lt_of_le hm hdge
        have hmin : minDist v (e :: rest) = minDist v rest := by
          rw [hmd]; exact min_eq_right hmlt.le
        rw [if_pos hm, if_pos (by rw [hmin]; exact hm)]
        have hpe : decide (entryDist v e = minDist v rest) = false :=
          decide_eq_false (ne_of_gt hmlt)
        unfold firstMinByDist
        rw [hmin]
        simp only [List.find?, hpe]
      · rw [if_neg hm, if_neg (by
          rw [hmd]
          exact fun hc => (min_lt_iff.mp hc).elim (fun h => hd h) (fun h => hm h))]

/-- The minimal distance is a lower bound for every candidate. -/
theorem minDist_le_entryDist (v : Vec3) {cs : List QEntry} {e : QEntry} (he : e ∈ cs) :
    minDist v cs ≤ entryDist v e := by
  induction cs with
  | nil => cases he
  | cons a rest ih =>
    have hmd : minDist v (a :: rest) = min (entryDist v a) (minDist v rest) := rfl
    rcases List.mem_cons.mp he with h | h
    · subst h
      rw [hmd]
      exact min_le_left _ _
    · rw [hmd]
      exact le_trans (min_le_right _ _) (ih h)

/-- When some candidate has a valid bounds-center the spec-side
selection is defined. -/
theorem firstMinByDist_isSome (v : Vec3) (cs : List QEntry) (h : minDist v cs ≠ ⊤) :
    ∃ e, firstMinByDist v cs = some e := by
  induction cs with
  | nil => exact absurd rfl h
  | cons a rest ih =>
    have hmd : minDist v (a :: rest) = min (entryDist v a) (minDist v rest) := rfl
    by_cases hle : entryDist v a ≤ minDist v rest
    · have hmin : minDist v (a :: rest) = entryDist v a := by
        rw [hmd]; exact min_eq_left hle
      have hpa : decide (entryDist v a = minDist v (a :: rest)) = true :=
        decide_eq_true hmin.symm
      exact ⟨a, by unfold firstMinByDist; simp only [List.find?, hpa]⟩
    · have hlt : minDist v rest < entryDist v a := not_le.mp hle
      have hmin : minDist v (a :: rest) = minDist v rest := by
        rw [hmd]; exact min_eq_right hlt.le
      have hrest : minDist v rest ≠ ⊤ := by
        rw [hmin] at h; exact h
      obtain ⟨e, he⟩ := ih hrest
      have hpa : decide (entryDist v a = minDist v rest) = false :=
        decide_eq_false (ne_of_gt hlt)
      refine ⟨e, ?_⟩
      unfold firstMinByDist
      rw [hmin]
      simp only [List.find?, hpa]
      exact he

/-- `ratNat?` sends a natural index to itself. -/
theorem ratNat?_natCast (i : ℕ) : ratNat? (i : ℚ) = some i := by
  simp [ratNat?]

/-- C8 (amended): when the bounds-containment step has several matching
entries and at least one of them has a valid bounds-center, metadata
resolution (after a failed id match) returns exactly the spec's
selection – the first entry of smallest squared bounds-center distance. -/
theorem getQuadrantDetails_multi_candidate_min
    (index : Option ℚ) (v : Vec3) (data : List (Option QEntry))
    (hid : idStep index data = none)
    (hlen : 1 < (candidatesOf v data).length)
    (hfin : ∃ e ∈ candidatesOf v data, entryDist v e ≠ ⊤) :
    getQuadrantDetails index (some v) data = firstMinByDist v (candidatesOf v data) := by
  have hdata : ¬ data = [] := by
    intro h
    rw [h] at hlen
    simp [candidatesOf] at hlen
  have hmin : minDist v (candidatesOf v data) < ⊤ := by
    obtain ⟨e, he, hne⟩ := hfin
    exact lt_of_le_of_lt (minDist_le_entryDist v he) (lt_top_iff_ne_top.mpr hne)
  have hb : boundsStep (some v) data = firstMinByDist v (candidatesOf v data) := by
    have h1 : ¬ (candidatesOf v data).length = 1 := by omega
    simp only [boundsStep]
    rw [if_neg h1, if_pos hlen, selectBestAux_spec, if_pos hmin]
  obtain ⟨e, he⟩ := firstMinByDist_isSome v (candidatesOf v data) hmin.ne
  unfold getQuadrantDetails
  rw [if_neg hdata, hid, hb, he]

/-- Witness dataset entry with bounds `x ∈ [-1, 1]` (center `0`). -/
def entryC : QEntry := ⟨none, some "C", none, some ⟨some [some (-1), some 1], none, none⟩, none⟩

/-- Witness dataset entry with bounds `x ∈ [-1, 0]` (center `-1/2`). -/
def entryD : QEntry := ⟨none, some "D", none, some ⟨some [some (-1), some 0], none, none⟩, none⟩

/-- Witness for C8 (amended): on a two-entry dataset whose bounds both
contain the origin and have valid centers, resolution returns the
first-minimal-distance candidate. -/
theorem getQuadrantDetails_multi_candidate_min_check :
    getQuadrantDetails (some 5) (some ⟨0, 0, 0⟩) [some entryC, some entryD] =
      firstMinByDist ⟨0, 0, 0⟩ (candidatesOf ⟨0, 0, 0⟩ [some entryC, some entryD]) :=
  getQuadrantDetails_multi_candidate_min (some 5) ⟨0, 0, 0⟩ [some entryC, some entryD]
    (by decide) (by decide) ⟨entryC, by decide, by decide⟩

/-- Boundless dataset entry named "A". -/
def entryA : QEntry := ⟨none, some "A", none, none, none⟩

/-- Boundless dataset entry named "B". -/
def entryB : QEntry := ⟨none, some "B", none, none, none⟩

/-- C8 counterexample: with two matching entries having no valid bounds
axes at all (both bounds-center distances are infinite, a tie), the code
does not return the first entry in dataset order: it falls through to
positional indexing and returns the second entry. -/
theorem getQuadrantDetails_not_first_min_counterexample :
    1 < (candidatesOf ⟨0, 0, 0⟩ [some entryA, some entryB]).length ∧
    getQuadrantDetails (some 1) (some ⟨0, 0, 0⟩) [some entryA, some entryB] = some entryB ∧
    firstMinByDist ⟨0, 0, 0⟩ (candidatesOf ⟨0, 0, 0⟩ [some entryA, some entryB]) = some entryA ∧
    entryA ≠ entryB := by decide

/-! ## Legend and resolver degradation (C9) -/

/-- C9 (amended): an absent/non-array or empty dataset yields the
synthetic 16-entry base legend, whose every entry has a defined
sector-label descriptor and a palette color; and on a dataset whose
first element is a truthy entry, resolution by index alone is non-null
for every index in `[0, 15]`. -/
theorem legend_and_resolve_fallback :
    (∀ data : Option (List (Option QEntry)), (data = none ∨ data = some []) →
      getQuadrantLegend data = BASE_QUADRANT_LEGEND ∧
      (getQuadrantLegend data).length = 16 ∧
      ∀ e ∈ getQuadrantLegend data, e.descriptor ≠ none ∧ e.color ∈ QUADRANT_COLORS) ∧
    (∀ (data : List (Option QEntry)) (e₀ : QEntry), data.head? = some (some e₀) →
      ∀ i : ℕ, i ≤ 15 → getQuadrantDetails (some (i : ℚ)) none data ≠ none) := by
  constructor
  · rintro data (rfl | rfl)
    · exact ⟨rfl, by decide, by decide⟩
    · exact ⟨rfl, by decide, by decide⟩
  · intro data e₀ h0 i hi
    have hdata : ¬ data = [] := by
      intro h
      rw [h] at h0
      exact Option.noConfusion h0
    have hhead : data.head?.bind (fun oe => oe) = some e₀ := by
      rw [h0]
      rfl
    unfold getQuadrantDetails
    rw [if_neg hdata]
    cases hid : idStep (some (i : ℚ)) data with
    | some e => simp
    | none =>
      have hbv : boundsStep none data = none := rfl
      rw [hbv]
      have hpos : positionalStep (some (i : ℚ)) data =
          (data.get? i).bind (fun oe => oe) := by
        simp only [positionalStep]
        rw [ratNat?_natCast]
      rw [hpos]
      cases hg : (data.get? i).bind (fun oe => oe) with
      | some e => simp
      | none =>
        rw [hhead]
        simp

/-- Witness for C9 (amended): the empty dataset produces the base
legend, and a one-entry dataset resolves index `0` to a non-null
entry. -/
theorem legend_and_resolve_fallback_check :
    getQuadrantLegend (some []) = BASE_QUADRANT_LEGEND ∧
    getQuadrantDetails (some ((0 : ℕ) : ℚ)) none [some entryA] ≠ none :=
  ⟨(legend_and_resolve_fallback.1 (some []) (Or.inr rfl)).1,
   legend_and_resolve_fallback.2 [some entryA] entryA rfl 0 (by decide)⟩

/-- C9 counterexample: the one-element dataset `[null]` is a non-empty
array, yet resolving index `0` yields `null` (the final
`QUADRANT_DATA[0] || null` fallback hits the null entry). -/
theorem getQuadrantDetails_null_entry_counterexample :
    getQuadrantDetails (some 0) none [none] = none ∧
    ([none] : List (Option QEntry)) ≠ [] := by decide

/-! ## Range facts about the classifier (C3) -/

/-- `arctan` of a nonpositive number is nonpositive. -/
theorem arctan_nonpos_of_nonpos {u : ℝ} (h : u ≤ 0) : Real.arctan u ≤ 0 := by
  have hm := Real.arctan_strictMono.monotone h
  rwa [Real.arctan_zero] at hm

/-- `arctan` of a positive number is positive. -/
theorem arctan_pos_of_pos {u : ℝ} (h : 0 < u) : 0 < Real.arctan u := by
  have hm := Real.arctan_strictMono h
  rwa [Real.arctan_zero] at hm

/-- `Math.atan2` stays strictly above `-π`. -/
theorem neg_pi_lt_atan2 (y x : ℝ) : -Real.pi < atan2 y x := by
  have hpi := Real.pi_pos
  unfold atan2
  split_ifs with h1 h2 h3 h4 h5
  · have h := Real.neg_pi_div_two_lt_arctan (y / x)
    linarith
  · have h := Real.neg_pi_div_two_lt_arctan (y / x)
    linarith
  · have hyx : 0 < y / x := div_pos_of_neg_of_neg h3.2 h3.1
    have h := arctan_pos_of_pos hyx
    linarith
  · linarith
  · linarith
  · linarith

/-- `Math.atan2` stays at or below `π`. -/
theorem atan2_le_pi (y x : ℝ) : atan2 y x ≤ Real.pi := by
  have hpi := Real.pi_pos
  unfold atan2
  split_ifs with h1 h2 h3 h4 h5
  · have h := Real.arctan_lt_pi_div_two (y / x)
    linarith
  · have hyx : y / x ≤ 0 := div_nonpos_iff.mpr (Or.inl ⟨h2.2, h2.1.le⟩)
    have h := arctan_nonpos_of_nonpos hyx
    linarith
  · have h := Real.arctan_lt_pi_div_two (y / x)
    linarith
  · linarith
  · linarith
  · linarith

/-- The normalized azimuth is nonnegative. -/
theorem phiOf_nonneg (y x : ℝ) : 0 ≤ phiOf y x := by
  have hpi := Real.pi_pos
  have hlb := neg_pi_lt_atan2 y x
  unfold phiOf
  split_ifs with h
  · linarith
  · exact not_lt.mp h

/-- The polar angle is nonnegative. -/
theorem thetaOf_nonneg (x y z : ℝ) : 0 ≤ thetaOf x y z := by
  unfold thetaOf
  split_ifs
  · exact le_refl 0
  · exact Real.arccos_nonneg _

/-- The raw azimuth sector is nonnegative. -/
theorem phiSectorRaw_nonneg (x y : ℝ) : 0 ≤ phiSectorRaw x y := by
  have hpi := Real.pi_pos
  unfold phiSectorRaw
  exact Int.floor_nonneg.mpr
    (mul_nonneg (div_nonneg (phiOf_nonneg y x) (by linarith)) (by norm_num))

/-- The raw polar sector is nonnegative. -/
theorem thetaSectorRaw_nonneg (x y z : ℝ) : 0 ≤ thetaSectorRaw x y z := by
  have hpi := Real.pi_pos
  unfold thetaSectorRaw
  exact Int.floor_nonneg.mpr
    (mul_nonneg (div_nonneg (thetaOf_nonneg x y z) (by linarith)) (by norm_num))

/-- The sector clamp keeps a nonnegative sector inside `[0, 3]`. -/
theorem clampSector_bounds {n : ℤ} (h : 0 ≤ n) :
    0 ≤ clampSector n ∧ clampSector n ≤ 3 := by
  unfold clampSector
  split_ifs <;> omega

/-- C3: the spherical classifier is total – for every real input the
clamped sectors lie in `[0, 3]` and the quadrant index in `[0, 15]`. -/
theorem quadrantFromVector_sector_bounds (x y z : ℝ) :
    0 ≤ (quadrantFromVector x y z).phiSector ∧ (quadrantFromVector x y z).phiSector ≤ 3 ∧
    0 ≤ (quadrantFromVector x y z).thetaSector ∧ (quadrantFromVector x y z).thetaSector ≤ 3 ∧
    0 ≤ (quadrantFromVector x y z).index ∧ (quadrantFromVector x y z).index ≤ 15 := by
  have hp : (quadrantFromVector x y z).phiSector = clampSector (phiSectorRaw x y) := rfl
  have ht : (quadrantFromVector x y z).thetaSector = clampSector (thetaSectorRaw x y z) := rfl
  have hix : (quadrantFromVector x y z).index =
      clampSector (phiSectorRaw x y) * 4 + clampSector (thetaSectorRaw x y z) := rfl
  obtain ⟨h1, h2⟩ := clampSector_bounds (phiSectorRaw_nonneg x y)
  obtain ⟨h3, h4⟩ := clampSector_bounds (thetaSectorRaw_nonneg x y z)
  rw [hp, ht, hix]
  omega

/-! ## Concrete classifier evaluations (C2, C7) -/

/-- `atan2 0 0 = 0` (the JS convention the spec relies on). -/
theorem atan2_zero_zero : atan2 0 0 = 0 := by
  unfold atan2
  norm_num

/-- The azimuth of the origin direction is `0`. -/
theorem phiOf_zero_zero : phiOf 0 0 = 0 := by
  unfold phiOf
  rw [atan2_zero_zero]
  norm_num

/-- The raw azimuth sector at `y = x = 0` is `0`. -/
theorem phiSectorRaw_zero_zero : phiSectorRaw 0 0 = 0 := by
  unfold phiSectorRaw
  rw [phiOf_zero_zero]
  norm_num

/-- C2: at the south pole `(0, 0, -1)` (where `theta = π` exactly) the
result view's `quadrant16` is `5`, while the classifier's 0-based
`quadrantIndex` is `3`, i.e. user-facing id `4`: the two user-facing ids
disagree, because `computeResults` never clamps `thetaSector` even
though its own comments assert the sector range `0..3`. -/
theorem computeQuadrant16_mismatch_at_south_pole :
    computeQuadrant16 0 0 (-1) = 5 ∧ (quadrantFromVector 0 0 (-1)).index + 1 = 4 := by
  have hr : rMag 0 0 (-1) = 1 := by
    unfold rMag
    rw [show (0:ℝ) * 0 + 0 * 0 + (-1) * (-1) = 1 by norm_num, Real.sqrt_one]
  have htheta : thetaOf 0 0 (-1) = Real.pi := by
    unfold thetaOf
    rw [hr]
    norm_num [Real.arccos_neg_one]
  have hts : thetaSectorRaw 0 0 (-1) = 4 := by
    unfold thetaSectorRaw
    rw [htheta, div_self (ne_of_gt Real.pi_pos),
      show (1:ℝ) * 4 = ((4:ℤ) : ℝ) by norm_num, Int.floor_intCast]
  constructor
  · unfold computeQuadrant16
    rw [phiSectorRaw_zero_zero, hts]
    decide
  · have hix : (quadrantFromVector 0 0 (-1)).index =
        clampSector (phiSectorRaw 0 0) * 4 + clampSector (thetaSectorRaw 0 0 (-1)) := rfl
    rw [hix, phiSectorRaw_zero_zero, hts]
    decide

/-- `1/√3 < √2/2` (compare squares through `√6 > 2`). -/
theorem one_div_sqrt_three_lt : 1 / Real.sqrt 3 < Real.sqrt 2 / 2 := by
  have h3 : (0:ℝ) < Real.sqrt 3 := Real.sqrt_pos.mpr (by norm_num)
  rw [div_lt_div_iff₀ h3 (by norm_num : (0:ℝ) < 2)]
  have hm : Real.sqrt 2 * Real.sqrt 3 = Real.sqrt 6 := by
    rw [← Real.sqrt_mul (by norm_num : (0:ℝ) ≤ 2)]
    norm_num
  have h6 : (2:ℝ) < Real.sqrt 6 :=
    (Real.lt_sqrt (by norm_num)).mpr (by norm_num)
  rw [hm]
  linarith

/-- The polar angle of the diagonal `(1,1,1)` lies strictly between
`π/4` and `π/2`. -/
theorem arccos_inv_sqrt_three_bounds :
    Real.pi / 4 < Real.arccos (1 / Real.sqrt 3) ∧
    Real.arccos (1 / Real.sqrt 3) < Real.pi / 2 := by
  have h3 : (0:ℝ) < Real.sqrt 3 := Real.sqrt_pos.mpr (by norm_num)
  constructor
  · by_contra hcon
    push_neg at hcon
    have hle := Real.arccos_le_pi_div_four.mp hcon
    have hlt := one_div_sqrt_three_lt
    linarith
  · exact Real.arccos_lt_pi_div_two.mpr (div_pos one_pos h3)

/-- C7: end-to-end worked example – three one-hot questions give axis
totals `(1,1,1)`; answering all three with the maximum value `1` gives
running score `(1,1,1)`; the scorer yields the coordinate `(1,1,1)`;
and the classifier puts it in `phiSector 0`, `thetaSector 1`,
`quadrantIndex 1`, with user-facing quadrant id `2`. -/
theorem three_onehot_max_answers_example :
    computeWeightTotals exampleQuestions = ⟨1, 1, 1⟩ ∧
    (answerCurrent 1 (answerCurrent 1 (answerCurrent 1 exampleStart))).x = 1 ∧
    (answerCurrent 1 (answerCurrent 1 (answerCurrent 1 exampleStart))).y = 1 ∧
    (answerCurrent 1 (answerCurrent 1 (answerCurrent 1 exampleStart))).z = 1 ∧
    getNormalizedScores 1 1 1 ⟨1, 1, 1⟩ = ⟨1, 1, 1⟩ ∧
    (quadrantFromVector 1 1 1).phiSector = 0 ∧
    (quadrantFromVector 1 1 1).thetaSector = 1 ∧
    (quadrantFromVector 1 1 1).index = 1 ∧
    computeQuadrant16 1 1 1 = 2 := by
  have hpi := Real.pi_pos
  have h3 : (0:ℝ) < Real.sqrt 3 := Real.sqrt_pos.mpr (by norm_num)
  have hr : rMag 1 1 1 = Real.sqrt 3 := by
    unfold rMag
    norm_num
  have hr0 : ¬ rMag 1 1 1 = 0 := by
    rw [hr]
    exact Real.sqrt_ne_zero'.mpr (by norm_num)
  have htheta : thetaOf 1 1 1 = Real.arccos (1 / Real.sqrt 3) := by
    unfold thetaOf
    rw [if_neg hr0, hr]
  obtain ⟨hb1, hb2⟩ := arccos_inv_sqrt_three_bounds
  have hts : thetaSectorRaw 1 1 1 = 1 := by
    unfold thetaSectorRaw
    rw [htheta]
    apply Int.floor_eq_iff.mpr
    constructor
    · rw [div_mul_eq_mul_div, le_div_iff₀ hpi]
      push_cast
      linarith
    · rw [div_mul_eq_mul_div, div_lt_iff₀ hpi]
      push_cast
      linarith
  have hatan : atan2 1 1 = Real.pi / 4 := by
    unfold atan2
    rw [if_pos (by norm_num : (0:ℝ) < 1)]
    norm_num [Real.arctan_one]
  have hphi : phiOf 1 1 = Real.pi / 4 := by
    unfold phiOf
    rw [hatan, if_neg (by linarith)]
  have hps : phiSectorRaw 1 1 = 0 := by
    unfold phiSectorRaw
    rw [hphi, show Real.pi / 4 / (2 * Real.pi) * 4 = 1 / 2 by
      field_simp
      ring]
    apply Int.floor_eq_iff.mpr
    norm_num
  have hqp : (quadrantFromVector 1 1 1).phiSector = clampSector (phiSectorRaw 1 1) := rfl
  have hqt : (quadrantFromVector 1 1 1).thetaSector = clampSector (thetaSectorRaw 1 1 1) := rfl
  have hqi : (quadrantFromVector 1 1 1).index =
      clampSector (phiSectorRaw 1 1) * 4 + clampSector (thetaSectorRaw 1 1 1) := rfl
  refine ⟨by decide, by decide, by decide, by decide, by decide, ?_, ?_, ?_, ?_⟩
  · rw [hqp, hps]
    decide
  · rw [hqt, hts]
    decide
  · rw [hqi, hps, hts]
    decide
  · unfold computeQuadrant16
    rw [hps, hts]
    decide
